import Mathlib

/-!
Verification of the AWS CodeCommit platform adapter
(src/lib/modules/platform/codecommit/index.ts) against its natural-language
specification.  The adapter is embedded shallowly: remote calls are recorded
in an explicit call log, the remote service is an explicit environment of
responses, and the module-level mutable `config` object is threaded through
every operation as an explicit `Config` value.
-/

namespace CodeCommit

/-- Canonical pull-request states of the adapter (the `PrState` enum). -/
inductive PrState where
  | Open
  | Closed
  | Merged
  | All
  | NotOpen
deriving DecidableEq, Repr

/-- Raw pull-request status values of the remote service
(`PullRequestStatusEnum` of the AWS SDK). -/
inductive PullRequestStatusEnum where
  | OPEN
  | CLOSED
deriving DecidableEq, Repr

/-- Merge metadata of a raw pull-request target. -/
structure MergeMetadata where
  isMerged : Option Bool
deriving DecidableEq, Repr

/-- Raw pull-request target.  The source reads `sourceReference!` and
`destinationReference!` with non-null assertions, so they are modelled as
plain strings; `repositoryName` and `mergeMetadata` are read through
optional chaining and stay optional. -/
structure PullRequestTarget where
  sourceReference : String
  destinationReference : String
  repositoryName : Option String
  mergeMetadata : Option MergeMetadata
deriving DecidableEq, Repr

/-- Raw pull-request record of the remote service.  `title` is read with a
non-null assertion in the source and is modelled as a plain string;
`pullRequestTargets` is optional in the SDK and guarded in `mergePr`. -/
structure AwsPullRequest where
  title : String
  pullRequestStatus : PullRequestStatusEnum
  pullRequestTargets : Option (List PullRequestTarget)
  revisionId : Option String
deriving DecidableEq, Repr

/-- Canonical pull request returned by the adapter. -/
structure Pr where
  number : Nat
  sourceBranch : String
  targetBranch : String
  title : String
  state : PrState
  sha : Option String := none
  sourceRepo : Option String := none
deriving DecidableEq, Repr

/-- Module-level mutable `config` object of the adapter. -/
structure Config where
  repository : Option String := none
  defaultBranch : Option String := none
  region : Option String := none
  prList : Option (List Pr) := none
  userArn : Option String := none
deriving DecidableEq, Repr

/-- Raw comment of a pull-request comment thread.  The service always
assigns a non-empty comment id, so `commentId` is modelled as a plain
string; `content` is read through optional chaining and stays optional. -/
structure Comment where
  commentId : String
  content : Option String
deriving DecidableEq, Repr

/-- Raw comment thread (`commentsForPullRequestData` entry). -/
structure CommentThread where
  comments : Option (List Comment)
deriving DecidableEq, Repr

/-- Metadata of a source-reference-updated pull-request event. -/
structure SourceReferenceUpdatedMetadata where
  beforeCommitId : Option String
  afterCommitId : Option String
deriving DecidableEq, Repr

/-- Raw pull-request event. -/
structure PrEvent where
  sourceReferenceUpdatedMetadata : Option SourceReferenceUpdatedMetadata
deriving DecidableEq, Repr

/-- Raw `pullRequest` part of a create-pull-request response. -/
structure CreatedPrInfo where
  title : Option String
  pullRequestId : Option Nat
deriving DecidableEq, Repr

/-- Remote calls the adapter can issue, recorded in a log.  Pull-request
identifiers are modelled as naturals (the source converts them to strings
on the wire and parses them back with `Number.parseInt`). -/
inductive RemoteCall where
  | listPullRequests (repository userArn : Option String)
  | getPr (pullRequestId : Nat)
  | createPr (title description sourceBranch targetBranch : String)
      (repository : Option String)
  | updatePrDescription (pullRequestId : Nat) (description : String)
  | updatePrTitle (pullRequestId : Nat) (title : String)
  | updatePrStatus (pullRequestId : Nat) (status : PullRequestStatusEnum)
  | squashMerge (repositoryName : Option String)
      (sourceReference destinationReference : String) (title : Option String)
  | fastForwardMerge (repositoryName : Option String)
      (sourceReference destinationReference : String)
  | getPrComments (repository : Option String) (pullRequestId : Nat)
  | getPrEvents (pullRequestId : Nat)
  | createPrComment (pullRequestId : Nat) (repository : Option String)
      (body beforeCommitId afterCommitId : String)
  | updateComment (commentId : String) (body : String)
  | deleteComment (commentId : String)
deriving DecidableEq, Repr

/-- Responses of the remote service for one session, one field per remote
endpoint the adapter uses.  `Except Unit` models a call that may reject. -/
structure Env where
  listPullRequestsResp : Except Unit (Option (Option (List Nat)))
  getPrResp : Nat → Option AwsPullRequest
  createPrResp : Option CreatedPrInfo
  updatePrDescriptionResp : Except Unit Unit
  updatePrTitleResp : Except Unit Unit
  updatePrStatusResp : Except Unit (Option PullRequestStatusEnum)
  squashMergeResp : Except Unit Unit
  fastForwardMergeResp : Except Unit Unit
  getPrCommentsResp : Except Unit (List CommentThread)
  getPrEventsResp : Option (List PrEvent)

/-- Result of one adapter operation: the returned value, the config object
after the operation, and the remote calls issued, in order. -/
structure OpResult (α : Type) where
  res : α
  cfg : Config
  calls : List RemoteCall
deriving Repr

/-- JavaScript truthiness of an optional string: `undefined` and the empty
string are falsy. -/
def jsTruthy : Option String → Bool
  | none => false
  | some s => s != ""

/-- Truthiness of `target.mergeMetadata?.isMerged`: true exactly when the
metadata is present and reports `isMerged = true`. -/
def targetIsMerged (t : PullRequestTarget) : Bool :=
  match t.mergeMetadata with
  | some m => m.isMerged.getD false
  | none => false

/-- Shallow embedding of `getPr` (index.ts lines 244 to 271): fetch the raw
record and translate it; merge metadata takes precedence over the raw
status.  The source indexes `pullRequestTargets![0]` with a non-null
assertion, so records without a first target are outside the modelled
domain and mapped to `none`. -/
def getPr (env : Env) (pullRequestId : Nat) : Option Pr × List RemoteCall :=
  (match env.getPrResp pullRequestId with
   | none => none
   | some prInfo =>
     match prInfo.pullRequestTargets with
     | some (t :: _) =>
       let prState : PrState :=
         if targetIsMerged t then PrState.Merged
         else if prInfo.pullRequestStatus = PullRequestStatusEnum.OPEN then
           PrState.Open
         else PrState.Closed
       some { sourceBranch := t.sourceReference
              state := prState
              number := pullRequestId
              title := prInfo.title
              targetBranch := t.destinationReference
              sha := prInfo.revisionId }
     | _ => none,
   [RemoteCall.getPr pullRequestId])

/-- Claim C1: for every pull-request record fetched by getPr whose merge
metadata reports isMerged = true, the returned PR has state Merged,
regardless of whether the raw pullRequestStatus field is OPEN or CLOSED;
when isMerged is not true, the state is Open if the raw status equals OPEN
and Closed otherwise. -/
theorem getPr_state_translation (env : Env) (n : Nat) (prInfo : AwsPullRequest)
    (t : PullRequestTarget) (ts : List PullRequestTarget)
    (hresp : env.getPrResp n = some prInfo)
    (htargets : prInfo.pullRequestTargets = some (t :: ts)) :
    (targetIsMerged t = true →
      ∃ pr, (getPr env n).1 = some pr ∧ pr.state = PrState.Merged) ∧
    (targetIsMerged t = false →
      ∃ pr, (getPr env n).1 = some pr ∧
        pr.state = (if prInfo.pullRequestStatus = PullRequestStatusEnum.OPEN
                    then PrState.Open else PrState.Closed)) := by
  constructor
  · intro hm
    refine ⟨{ sourceBranch := t.sourceReference, state := PrState.Merged,
              number := n, title := prInfo.title,
              targetBranch := t.destinationReference,
              sha := prInfo.revisionId }, ?_, rfl⟩
    simp [getPr, hresp, htargets, hm]
  · intro hm
    refine ⟨{ sourceBranch := t.sourceReference,
              state := if prInfo.pullRequestStatus = PullRequestStatusEnum.OPEN
                       then PrState.Open else PrState.Closed,
              number := n, title := prInfo.title,
              targetBranch := t.destinationReference,
              sha := prInfo.revisionId }, ?_, rfl⟩
    simp [getPr, hresp, htargets, hm]

/-- Sample raw target whose merge metadata reports a completed merge. -/
def mergedClosedTarget : PullRequestTarget :=
  { sourceReference := "refs/heads/feature"
    destinationReference := "refs/heads/main"
    repositoryName := some "someRepo"
    mergeMetadata := some { isMerged := some true } }

/-- Sample raw record: merged according to merge metadata, raw status
CLOSED. -/
def mergedClosedRecord : AwsPullRequest :=
  { title := "someTitle"
    pullRequestStatus := PullRequestStatusEnum.CLOSED
    pullRequestTargets := some [mergedClosedTarget]
    revisionId := some "rev1" }

/-- Environment with no data and every call succeeding vacuously. -/
def baseEnv : Env :=
  { listPullRequestsResp := Except.ok none
    getPrResp := fun _ => none
    createPrResp := none
    updatePrDescriptionResp := Except.ok ()
    updatePrTitleResp := Except.ok ()
    updatePrStatusResp := Except.ok none
    squashMergeResp := Except.ok ()
    fastForwardMergeResp := Except.ok ()
    getPrCommentsResp := Except.ok []
    getPrEventsResp := none }

/-- Environment whose pull request 1 is the merged-but-raw-CLOSED record. -/
def envMergedClosed : Env :=
  { baseEnv with
    listPullRequestsResp := Except.ok (some (some [1]))
    getPrResp := fun n => if n = 1 then some mergedClosedRecord else none }

/-- Witness for claim C1 at pull request 1 of `envMergedClosed`. -/
theorem getPr_state_translation_witness :
    ∃ pr, (getPr envMergedClosed 1).1 = some pr ∧ pr.state = PrState.Merged :=
  (getPr_state_translation envMergedClosed 1 mergedClosedRecord
    mergedClosedTarget [] (by decide) (by decide)).1 (by decide)

/-- Character-level string prefix test, standing in for the JavaScript
prefix test: both compare character sequences, and the character-list
form keeps the test computable by the kernel. -/
def strStartsWith (s pre : String) : Bool :=
  pre.data.isPrefixOf s.data

/-- A string extended on the right still starts with itself. -/
theorem strStartsWith_append_left (p s : String) :
    strStartsWith (p ++ s) p = true := by
  simp [strStartsWith, String.data_append, List.isPrefixOf_iff_prefix,
    List.prefix_append]

/-- Modelled from the spec: getNewBranchName computes the canonical ref form
of a branch name, prefixing the standard branch-ref namespace when it is
not already present.  The helper itself lives in the platform util module,
which is outside the provided sources. -/
def getNewBranchName (branchName : String) : String :=
  if strStartsWith branchName "refs/heads/" then branchName
  else "refs/heads/" ++ branchName

/-- Translation loop of `getPrList` (index.ts lines 172 to 191): fetch each
identifier, skip identifiers whose fetch returns no data, and translate
the rest inline.  The inline translation derives the state from
`pullRequestStatus` alone and sets no sha.  The source indexes
`pullRequestTargets![0]` with a non-null assertion, so records without a
first target are outside the modelled domain and are skipped here. -/
def getPrListFetch (env : Env) : List Nat → List Pr
  | [] => []
  | prId :: rest =>
    match env.getPrResp prId with
    | none => getPrListFetch env rest
    | some prInfo =>
      match prInfo.pullRequestTargets with
      | some (t :: _) =>
        { targetBranch := t.destinationReference
          sourceBranch := t.sourceReference
          state := if prInfo.pullRequestStatus = PullRequestStatusEnum.OPEN
                   then PrState.Open else PrState.Closed
          number := prId
          title := prInfo.title } :: getPrListFetch env rest
      | _ => getPrListFetch env rest

/-- Shallow embedding of `getPrList` (index.ts lines 152 to 197): return the
cached list verbatim when present, with no remote call; otherwise list the
identifiers, fetch and translate each one, and store the result in the
cache.  A listing response that is present but carries no identifier field
returns an empty list without caching. -/
def getPrList (cfg : Config) (env : Env) : OpResult (Except Unit (List Pr)) :=
  match cfg.prList with
  | some prs => ⟨Except.ok prs, cfg, []⟩
  | none =>
    let listCall := RemoteCall.listPullRequests cfg.repository cfg.userArn
    match env.listPullRequestsResp with
    | Except.error e => ⟨Except.error e, cfg, [listCall]⟩
    | Except.ok (some none) => ⟨Except.ok [], cfg, [listCall]⟩
    | Except.ok none =>
      ⟨Except.ok [], { cfg with prList := some [] }, [listCall]⟩
    | Except.ok (some (some prIds)) =>
      let fetched := getPrListFetch env prIds
      ⟨Except.ok fetched, { cfg with prList := some fetched },
        listCall :: prIds.map RemoteCall.getPr⟩

/-- Empty config object, as after module load. -/
def cfgEmpty : Config := {}

/-- Claim C2 counterexample: on a cache miss, the single listed pull request
has isMerged = true in its merge metadata, yet getPrList returns it with
state Closed, while getPr applied to the very same record returns state
Merged, so the listing does not use the derived-state rule of section
4.1. -/
theorem getPrList_merged_counterexample :
    ((getPrList cfgEmpty envMergedClosed).res =
      Except.ok [{ number := 1
                   sourceBranch := "refs/heads/feature"
                   targetBranch := "refs/heads/main"
                   title := "someTitle"
                   state := PrState.Closed }]) ∧
    targetIsMerged mergedClosedTarget = true ∧
    ((getPr envMergedClosed 1).1.map Pr.state = some PrState.Merged) :=
  ⟨rfl, by decide, rfl⟩

/-- Every pull request produced by the translation loop of getPrList has no
sha and a state derived from the raw status alone, hence never Merged. -/
theorem getPrListFetch_state (env : Env) (prIds : List Nat) :
    ∀ pr ∈ getPrListFetch env prIds,
      pr.sha = none ∧ (pr.state = PrState.Open ∨ pr.state = PrState.Closed) := by
  induction prIds with
  | nil => simp [getPrListFetch]
  | cons prId rest ih =>
    intro pr hpr
    simp only [getPrListFetch] at hpr
    cases henv : env.getPrResp prId with
    | none =>
      simp only [henv] at hpr
      exact ih pr hpr
    | some prInfo =>
      simp only [henv] at hpr
      cases htr : prInfo.pullRequestTargets with
      | none => simp only [htr] at hpr; exact ih pr hpr
      | some targets =>
        simp only [htr] at hpr
        cases targets with
        | nil => exact ih pr hpr
        | cons t ts =>
          rcases List.mem_cons.mp hpr with hpr | hpr
          · subst hpr
            refine ⟨rfl, ?_⟩
            split <;> simp
          · exact ih pr hpr

/-- Claim C2 amended: on a cache miss, getPrList translates each fetched PR
inline, deriving the state from pullRequestStatus alone (Open when OPEN,
Closed otherwise) and ignoring merge metadata, so no listed PR ever has
state Merged (a record whose merge metadata reports isMerged = true is
listed as Closed or Open, unlike the getPr translation of section 4.1),
and the sha field of a listed PR is never populated. -/
theorem getPrList_state_from_status_only (cfg : Config) (env : Env)
    (prIds : List Nat) (hcache : cfg.prList = none)
    (hlist : env.listPullRequestsResp = Except.ok (some (some prIds))) :
    ∃ prs, (getPrList cfg env).res = Except.ok prs ∧
      ∀ pr ∈ prs, pr.sha = none ∧
        (pr.state = PrState.Open ∨ pr.state = PrState.Closed) := by
  refine ⟨getPrListFetch env prIds, ?_, getPrListFetch_state env prIds⟩
  simp [getPrList, hcache, hlist]

/-- Witness for the amended claim C2 at `envMergedClosed`. -/
theorem getPrList_state_from_status_only_witness :
    ∃ prs, (getPrList cfgEmpty envMergedClosed).res = Except.ok prs ∧
      ∀ pr ∈ prs, pr.sha = none ∧
        (pr.state = PrState.Open ∨ pr.state = PrState.Closed) :=
  getPrList_state_from_status_only cfgEmpty envMergedClosed [1] rfl rfl

/-- Shallow embedding of `findPr` (index.ts lines 199 to 233): filter the
directory by canonical source branch, then by title when one is given,
then by state; the switch treats All as no filter, NotOpen as state not
Open, and every other requested state through its default arm, which
keeps the items whose state is Open.  A listing failure is caught and
yields none. -/
def findPr (cfg : Config) (env : Env) (branchName : String)
    (prTitle : Option String) (state : PrState) : OpResult (Option Pr) :=
  let r := getPrList cfg env
  match r.res with
  | Except.error _ => ⟨none, r.cfg, r.calls⟩
  | Except.ok prs =>
    let refsHeadBranchName := getNewBranchName branchName
    let f1 := prs.filter fun item => item.sourceBranch == refsHeadBranchName
    let f2 := if jsTruthy prTitle then
        f1.filter fun item => item.title == prTitle.getD ""
      else f1
    let f3 := match state with
      | PrState.All => f2
      | PrState.NotOpen => f2.filter fun item => item.state != PrState.Open
      | _ => f2.filter fun item => item.state == PrState.Open
    ⟨f3.head?, r.cfg, r.calls⟩

/-- Sample closed pull request on the feature branch. -/
def prClosedFeature : Pr :=
  { number := 1
    sourceBranch := "refs/heads/feature"
    targetBranch := "refs/heads/main"
    title := "someTitle"
    state := PrState.Closed }

/-- Config whose directory cache holds exactly the closed feature PR. -/
def cfgClosedCached : Config := { prList := some [prClosedFeature] }

/-- Claim C3 counterexample: the directory holds a Closed PR that matches
the requested branch, yet findPr with requested state Closed returns none
instead of that PR, because the default arm of the state switch keeps
only Open items. -/
theorem findPr_closed_state_counterexample :
    (findPr cfgClosedCached baseEnv "feature" none PrState.Closed).res = none ∧
    prClosedFeature.sourceBranch = getNewBranchName "feature" ∧
    prClosedFeature.state = PrState.Closed :=
  ⟨rfl, by decide, rfl⟩

/-- Branch and title filter of findPr, spelled out for comparison. -/
def branchTitleFilter (prs : List Pr) (branchName : String)
    (prTitle : Option String) : List Pr :=
  let refsHeadBranchName := getNewBranchName branchName
  let f1 := prs.filter fun item => item.sourceBranch == refsHeadBranchName
  if jsTruthy prTitle then f1.filter fun item => item.title == prTitle.getD ""
  else f1

/-- Claim C3 amended: findPr returns the first PR in directory order that
matches the canonical source branch (and the title, if one is given),
filtered by state as follows: All applies no state filter, NotOpen keeps
PRs whose state is not Open, and every concrete requested state (Open,
Closed, or Merged alike) keeps only PRs whose state is Open, not PRs
whose state equals the requested value. -/
theorem findPr_state_policy (cfg : Config) (env : Env) (branchName : String)
    (prTitle : Option String) (prs : List Pr) (hcache : cfg.prList = some prs) :
    ((findPr cfg env branchName prTitle PrState.All).res =
        (branchTitleFilter prs branchName prTitle).head?) ∧
    ((findPr cfg env branchName prTitle PrState.NotOpen).res =
        ((branchTitleFilter prs branchName prTitle).filter
          fun item => item.state != PrState.Open).head?) ∧
    (∀ s, (s = PrState.Open ∨ s = PrState.Closed ∨ s = PrState.Merged) →
      (findPr cfg env branchName prTitle s).res =
        ((branchTitleFilter prs branchName prTitle).filter
          fun item => item.state == PrState.Open).head?) := by
  refine ⟨?_, ?_, ?_⟩
  · simp [findPr, getPrList, hcache, branchTitleFilter]
  · simp [findPr, getPrList, hcache, branchTitleFilter]
  · rintro s (rfl | rfl | rfl) <;>
      simp [findPr, getPrList, hcache, branchTitleFilter]

/-- Witness for the amended claim C3 on the cached closed feature PR. -/
theorem findPr_state_policy_witness :
    (findPr cfgClosedCached baseEnv "feature" none PrState.Closed).res =
      ((branchTitleFilter [prClosedFeature] "feature" none).filter
        fun item => item.state == PrState.Open).head? :=
  ((findPr_state_policy cfgClosedCached baseEnv "feature" none
    [prClosedFeature] rfl).2.2 PrState.Closed (Or.inr (Or.inl rfl)))

/-- Modelled from the spec: descriptions are size-bounded (truncated to a
fixed byte budget) before composing.  The truncation helper lives in the
pr-body util module, which is outside the provided sources, so it is
modelled as a plain prefix truncation. -/
def smartTruncate (input : String) (len : Nat) : String :=
  if input.length ≤ len then input else input.take len

/-- Shallow embedding of `createPr` (index.ts lines 342 to 374): sanitize
and truncate the body, issue the remote create call, and translate the
response; a response without title or identifier raises the
missing-PR-info error.  The sanitizer is external to the provided sources
and is passed as a parameter. -/
def createPr (sanitize : String → String) (cfg : Config) (env : Env)
    (sourceBranch targetBranch title body : String) :
    OpResult (Except String Pr) :=
  let description := smartTruncate (sanitize body) 10239
  let call := RemoteCall.createPr title (sanitize description) sourceBranch
    targetBranch cfg.repository
  match env.createPrResp with
  | none => ⟨Except.error "Could not create pr, missing PR info", cfg, [call]⟩
  | some info =>
    match info.title, info.pullRequestId with
    | some t, some prId =>
      if t = "" then
        ⟨Except.error "Could not create pr, missing PR info", cfg, [call]⟩
      else
        ⟨Except.ok { number := prId
                     state := PrState.Open
                     title := t
                     sourceBranch := sourceBranch
                     targetBranch := targetBranch
                     sourceRepo := cfg.repository }, cfg, [call]⟩
    | _, _ => ⟨Except.error "Could not create pr, missing PR info", cfg, [call]⟩

/-- Final step of `updatePr` (index.ts lines 395 to 404): the status update
is always issued, with CLOSED exactly when the requested state is Closed;
the source wraps the call in a try block whose catch does nothing, so the
outcome does not depend on the response and the environment is not
consulted. -/
def updatePrStatusStep (cfg : Config) (prNo : Nat) (state : Option PrState)
    (calls : List RemoteCall) : OpResult (Except Unit Unit) :=
  let prStatusInput :=
    if state = some PrState.Closed then PullRequestStatusEnum.CLOSED
    else PullRequestStatusEnum.OPEN
  ⟨Except.ok (), cfg, calls ++ [RemoteCall.updatePrStatus prNo prStatusInput]⟩

/-- Title step of `updatePr` (index.ts lines 391 to 393): a truthy title
issues an unguarded title update whose rejection propagates. -/
def updatePrTitleStep (cfg : Config) (env : Env) (prNo : Nat)
    (title : Option String) (state : Option PrState)
    (calls : List RemoteCall) : OpResult (Except Unit Unit) :=
  if jsTruthy title then
    match env.updatePrTitleResp with
    | Except.error e =>
      ⟨Except.error e, cfg,
        calls ++ [RemoteCall.updatePrTitle prNo (title.getD "")]⟩
    | Except.ok _ =>
      updatePrStatusStep cfg prNo state
        (calls ++ [RemoteCall.updatePrTitle prNo (title.getD "")])
  else updatePrStatusStep cfg prNo state calls

/-- Shallow embedding of `updatePr` (index.ts lines 376 to 404): a truthy
body issues an unguarded description update whose rejection propagates,
then the title step, then the always-issued status step. -/
def updatePr (sanitize : String → String) (cfg : Config) (env : Env)
    (prNo : Nat) (title body : Option String) (state : Option PrState) :
    OpResult (Except Unit Unit) :=
  if jsTruthy body then
    let descCall := RemoteCall.updatePrDescription prNo
      (smartTruncate (sanitize (body.getD "")) 10239)
    match env.updatePrDescriptionResp with
    | Except.error e => ⟨Except.error e, cfg, [descCall]⟩
    | Except.ok _ => updatePrTitleStep cfg env prNo title state [descCall]
  else updatePrTitleStep cfg env prNo title state []

/-- Recognizer for status-update calls in a call log. -/
def isUpdatePrStatusCall : RemoteCall → Bool
  | RemoteCall.updatePrStatus _ _ => true
  | _ => false

/-- Claim C10: every updatePr call whose description and title updates do
not reject issues exactly one remote status-update call, with status
CLOSED when the requested state is Closed and OPEN for any other
requested state (including none); the status response is never consulted,
so a failing status update cannot make updatePr fail. -/
theorem updatePr_always_sets_status (sanitize : String → String) (cfg : Config)
    (env : Env) (prNo : Nat) (title body : Option String)
    (state : Option PrState)
    (hdesc : env.updatePrDescriptionResp = Except.ok ())
    (htitle : env.updatePrTitleResp = Except.ok ()) :
    (updatePr sanitize cfg env prNo title body state).res = Except.ok () ∧
    (updatePr sanitize cfg env prNo title body state).cfg = cfg ∧
    (updatePr sanitize cfg env prNo title body state).calls.filter
        isUpdatePrStatusCall =
      [RemoteCall.updatePrStatus prNo
        (if state = some PrState.Closed then PullRequestStatusEnum.CLOSED
         else PullRequestStatusEnum.OPEN)] := by
  cases hb : jsTruthy body <;> cases ht : jsTruthy title <;>
    refine ⟨?_, ?_, ?_⟩ <;>
      simp [updatePr, updatePrTitleStep, updatePrStatusStep, hb, ht,
        hdesc, htitle, isUpdatePrStatusCall]

/-- Witness for claim C10: closing PR 3 with no title and no body. -/
theorem updatePr_always_sets_status_witness :
    (updatePr (fun s => s) cfgEmpty baseEnv 3 none none
        (some PrState.Closed)).res = Except.ok () ∧
    (updatePr (fun s => s) cfgEmpty baseEnv 3 none none
        (some PrState.Closed)).cfg = cfgEmpty ∧
    (updatePr (fun s => s) cfgEmpty baseEnv 3 none none
        (some PrState.Closed)).calls.filter isUpdatePrStatusCall =
      [RemoteCall.updatePrStatus 3
        (if (some PrState.Closed : Option PrState) = some PrState.Closed
         then PullRequestStatusEnum.CLOSED else PullRequestStatusEnum.OPEN)] :=
  updatePr_always_sets_status (fun s => s) cfgEmpty baseEnv 3 none none
    (some PrState.Closed) rfl rfl

/-- Merge strategies of the orchestrator contract. -/
inductive MergeStrategy where
  | auto
  | fastForward
  | mergeCommit
  | rebase
  | squash
deriving DecidableEq, Repr

/-- Post-merge close step of `mergePr` (index.ts lines 458 to 481): always
try to set the PR status to CLOSED; a rejected close call yields false, a
reported status other than CLOSED only logs a warning and still yields
true. -/
def mergePrClose (cfg : Config) (env : Env) (prNo : Nat)
    (calls : List RemoteCall) : OpResult Bool :=
  let c := calls ++ [RemoteCall.updatePrStatus prNo PullRequestStatusEnum.CLOSED]
  match env.updatePrStatusResp with
  | Except.error _ => ⟨false, cfg, c⟩
  | Except.ok _ => ⟨true, cfg, c⟩

/-- Shallow embedding of `mergePr` (index.ts lines 408 to 482): fetch the
PR; a missing PR or missing target list yields false; the rebase strategy
is rejected before any merge call; auto and squash issue a squash merge,
fast-forward issues a fast-forward merge, and every other strategy yields
false without a merge call; a rejected merge call yields false, otherwise
the close step runs.  The source indexes `targets[0]` when merging, so an
empty target list is outside the modelled domain and yields false. -/
def mergePr (cfg : Config) (env : Env) (prNo : Nat)
    (strategy : MergeStrategy) : OpResult Bool :=
  let c0 := [RemoteCall.getPr prNo]
  match env.getPrResp prNo with
  | none => ⟨false, cfg, c0⟩
  | some pReq =>
    match pReq.pullRequestTargets with
    | none => ⟨false, cfg, c0⟩
    | some targets =>
      if strategy = MergeStrategy.rebase then ⟨false, cfg, c0⟩
      else
        match targets with
        | [] => ⟨false, cfg, c0⟩
        | t :: _ =>
          match strategy with
          | MergeStrategy.auto | MergeStrategy.squash =>
            let c1 := c0 ++ [RemoteCall.squashMerge t.repositoryName
              t.sourceReference t.destinationReference (some pReq.title)]
            (match env.squashMergeResp with
             | Except.error _ => ⟨false, cfg, c1⟩
             | Except.ok _ => mergePrClose cfg env prNo c1)
          | MergeStrategy.fastForward =>
            let c1 := c0 ++ [RemoteCall.fastForwardMerge t.repositoryName
              t.sourceReference t.destinationReference]
            (match env.fastForwardMergeResp with
             | Except.error _ => ⟨false, cfg, c1⟩
             | Except.ok _ => mergePrClose cfg env prNo c1)
          | _ => ⟨false, cfg, c0⟩

/-- Recognizer for remote merge calls (squash or fast-forward) in a log. -/
def isRemoteMergeCall : RemoteCall → Bool
  | RemoteCall.squashMerge _ _ _ _ => true
  | RemoteCall.fastForwardMerge _ _ _ => true
  | _ => false

/-- Claim C7: for every mergePr call whose strategy is rebase or any
strategy outside auto, squash and fast-forward (that is, merge-commit),
the function returns false without ever invoking the remote squash-merge
or fast-forward-merge endpoints, and it never throws: the result of the
embedding is total and equals false. -/
theorem mergePr_unsupported_strategy (cfg : Config) (env : Env) (prNo : Nat)
    (strategy : MergeStrategy)
    (hauto : strategy ≠ MergeStrategy.auto)
    (hsquash : strategy ≠ MergeStrategy.squash)
    (hff : strategy ≠ MergeStrategy.fastForward) :
    (mergePr cfg env prNo strategy).res = false ∧
    ∀ c ∈ (mergePr cfg env prNo strategy).calls, isRemoteMergeCall c = false := by
  have heq : mergePr cfg env prNo strategy = ⟨false, cfg, [RemoteCall.getPr prNo]⟩ := by
    cases strategy with
    | auto => exact absurd rfl hauto
    | squash => exact absurd rfl hsquash
    | fastForward => exact absurd rfl hff
    | rebase =>
      cases henv : env.getPrResp prNo with
      | none => simp [mergePr, henv]
      | some pReq =>
        cases htr : pReq.pullRequestTargets with
        | none => simp [mergePr, henv, htr]
        | some targets => simp [mergePr, henv, htr]
    | mergeCommit =>
      cases henv : env.getPrResp prNo with
      | none => simp [mergePr, henv]
      | some pReq =>
        cases htr : pReq.pullRequestTargets with
        | none => simp [mergePr, henv, htr]
        | some targets =>
          cases targets with
          | nil => simp [mergePr, henv, htr]
          | cons t ts => simp [mergePr, henv, htr]
  rw [heq]
  exact ⟨rfl, by simp [isRemoteMergeCall]⟩

/-- Witness for claim C7: a rebase merge of PR 5 against the merged-closed
environment returns false with no remote merge call. -/
theorem mergePr_unsupported_strategy_witness :
    (mergePr cfgEmpty envMergedClosed 5 MergeStrategy.rebase).res = false ∧
    ∀ c ∈ (mergePr cfgEmpty envMergedClosed 5 MergeStrategy.rebase).calls,
      isRemoteMergeCall c = false :=
  mergePr_unsupported_strategy cfgEmpty envMergedClosed 5 MergeStrategy.rebase
    (by decide) (by decide) (by decide)

/-- Topic header of a comment body (index.ts line 583): a truthy topic
yields the markdown header, otherwise the header is empty. -/
def commentHeader (topic : Option String) : String :=
  if jsTruthy topic then "### " ++ topic.getD "" ++ "\n\n" else ""

/-- Composed canonical body (index.ts line 584): the header followed by the
sanitized content in full; no truncation is applied here. -/
def commentBody (sanitize : String → String) (topic : Option String)
    (content : String) : String :=
  commentHeader topic ++ sanitize content

/-- Matching rule of the ensureComment scan (index.ts lines 610 to 613) on
one thread: the root comment matches when a truthy topic is given and the
root content starts with the header, or when no truthy topic is given and
the root content equals the composed body. -/
def threadMatches (topic : Option String) (header body : String)
    (thread : CommentThread) : Bool :=
  match thread.comments with
  | some (first :: _) =>
    match first.content with
    | some fc => (jsTruthy topic && strStartsWith fc header) ||
        (!(jsTruthy topic) && fc == body)
    | none => false
  | _ => false

/-- Scan of the comment threads (index.ts lines 604 to 618): the first
thread whose root matches is selected; the returned flag records whether
the root content differs from the composed body.  The source indexes
`comments[0]`, so threads with an empty comment list are outside the
modelled domain and are skipped. -/
def findCommentThread (topic : Option String) (header body : String) :
    List CommentThread → Option (String × Bool)
  | [] => none
  | thread :: rest =>
    match thread.comments with
    | some (first :: _) =>
      if threadMatches topic header body thread then
        some (first.commentId, first.content != some body)
      else findCommentThread topic header body rest
    | _ => findCommentThread topic header body rest

/-- Creation path of `ensureComment` (index.ts lines 620 to 647): resolve
the anchoring commit ids from the first pull-request event; missing
events or missing commit ids yield false, otherwise the comment is
created.  The source indexes the first event, so an empty event list is
outside the modelled domain and yields false. -/
def ensureCommentCreate (cfg : Config) (env : Env) (number : Nat)
    (body : String) (calls : List RemoteCall) : OpResult Bool :=
  let c1 := calls ++ [RemoteCall.getPrEvents number]
  match env.getPrEventsResp with
  | none => ⟨false, cfg, c1⟩
  | some [] => ⟨false, cfg, c1⟩
  | some (e :: _) =>
    match e.sourceReferenceUpdatedMetadata with
    | none => ⟨false, cfg, c1⟩
    | some meta =>
      match meta.beforeCommitId, meta.afterCommitId with
      | some before, some after =>
        if before = "" || after = "" then ⟨false, cfg, c1⟩
        else ⟨true, cfg, c1 ++ [RemoteCall.createPrComment number
          cfg.repository body before after]⟩
      | _, _ => ⟨false, cfg, c1⟩

/-- Shallow embedding of `ensureComment` (index.ts lines 577 to 663):
compose the body, retrieve the comment threads (a rejection yields
false), and select the first thread whose root matches; an identical
root is a no-op, a differing root is updated in place, and no match
leads to the creation path. -/
def ensureComment (sanitize : String → String) (cfg : Config) (env : Env)
    (number : Nat) (topic : Option String) (content : String) :
    OpResult Bool :=
  let header := commentHeader topic
  let body := commentBody sanitize topic content
  let c0 := [RemoteCall.getPrComments cfg.repository number]
  match env.getPrCommentsResp with
  | Except.error _ => ⟨false, cfg, c0⟩
  | Except.ok threads =>
    match findCommentThread topic header body threads with
    | some (commentId, needsUpdating) =>
      if needsUpdating then
        ⟨true, cfg, c0 ++ [RemoteCall.updateComment commentId body]⟩
      else ⟨true, cfg, c0⟩
    | none => ensureCommentCreate cfg env number body c0

/-- Config that names the sample repository. -/
def cfgRepo : Config := { repository := some "someRepo" }

/-- Two comment threads under the same topic header: the first thread has
stale content, the second thread already carries the composed body. -/
def threadsTwoTopic : List CommentThread :=
  [{ comments := some [{ commentId := "c1", content := some "### t\n\nold" }] },
   { comments := some [{ commentId := "c2", content := some "### t\n\nhello" }] }]

/-- Environment returning the two sample topic threads. -/
def envTwoTopic : Env :=
  { baseEnv with getPrCommentsResp := Except.ok threadsTwoTopic }

/-- Claim C5 counterexample: the second thread root already equals the
composed body, yet ensureComment issues a remote update call, because the
scan selects the first thread whose root merely starts with the topic
header. -/
theorem ensureComment_equal_root_counterexample :
    commentBody (fun s => s) (some "t") "hello" = "### t\n\nhello" ∧
    (threadsTwoTopic.getD 1 { comments := none }).comments =
      some [{ commentId := "c2", content := some "### t\n\nhello" }] ∧
    (ensureComment (fun s => s) cfgRepo envTwoTopic 1 (some "t") "hello").calls =
      [RemoteCall.getPrComments (some "someRepo") 1,
       RemoteCall.updateComment "c1" "### t\n\nhello"] :=
  ⟨rfl, rfl, by decide⟩

/-- Threads that all fail the matching rule contribute nothing to the
scan. -/
theorem findCommentThread_unmatched_append (topic : Option String)
    (header body : String) (pre rest : List CommentThread)
    (hpre : ∀ th ∈ pre, threadMatches topic header body th = false) :
    findCommentThread topic header body (pre ++ rest) =
      findCommentThread topic header body rest := by
  induction pre with
  | nil => rfl
  | cons th ths ih =>
    have hth := hpre th (List.mem_cons_self th ths)
    have hrest : ∀ x ∈ ths, threadMatches topic header body x = false :=
      fun x hx => hpre x (List.mem_cons_of_mem th hx)
    simp only [List.cons_append, findCommentThread]
    cases hc : th.comments with
    | none => exact ih hrest
    | some cs =>
      cases cs with
      | nil => exact ih hrest
      | cons first cs2 =>
        rw [hth]
        simp only [if_false]
        exact ih hrest

/-- A scan over threads that all fail the matching rule returns nothing. -/
theorem findCommentThread_none_of_unmatched (topic : Option String)
    (header body : String) (threads : List CommentThread)
    (h : ∀ th ∈ threads, threadMatches topic header body th = false) :
    findCommentThread topic header body threads = none := by
  have hx := findCommentThread_unmatched_append topic header body threads [] h
  simpa using hx

/-- When every earlier thread fails the rule and the first matching thread
has a root equal to the body, the scan selects that root with a clean
flag. -/
theorem findCommentThread_first_equal (topic : Option String)
    (header body : String) (pre post : List CommentThread)
    (thread : CommentThread) (first : Comment) (cs : List Comment)
    (hpre : ∀ th ∈ pre, threadMatches topic header body th = false)
    (hmatch : threadMatches topic header body thread = true)
    (hcomments : thread.comments = some (first :: cs))
    (hcontent : first.content = some body) :
    findCommentThread topic header body (pre ++ thread :: post) =
      some (first.commentId, false) := by
  rw [findCommentThread_unmatched_append topic header body pre _ hpre]
  simp only [findCommentThread, hcomments, hmatch, if_true]
  simp [hcontent]

/-- One-comment thread whose root carries the given body. -/
def bodyThread (cid body : String) : CommentThread :=
  { comments := some [{ commentId := cid, content := some body }] }

/-- A freshly created thread whose root carries the composed body matches
the selection rule: with a truthy topic the body starts with its own
header, and otherwise the body equals itself. -/
theorem threadMatches_body_root (sanitize : String → String)
    (topic : Option String) (content : String) (cid : String) :
    threadMatches topic (commentHeader topic)
      (commentBody sanitize topic content)
      (bodyThread cid (commentBody sanitize topic content)) = true := by
  simp only [bodyThread, threadMatches, commentBody, strStartsWith_append_left]
  cases jsTruthy topic <;> simp

/-- Claim C5 amended: ensureComment is a no-op (no remote create call, no
remote update call, result true) when the first thread matching the
selection rule has a root equal to the composed body; and when no
existing thread matches the rule and the creation anchors exist, calling
ensureComment twice with identical topic and content issues exactly one
remote create call on the first invocation and no create or update call
on the second, provided the remote appends the created thread. -/
theorem ensureComment_idempotent_amended (sanitize : String → String)
    (cfg : Config) (number : Nat) (topic : Option String) (content : String) :
    (∀ env threads pre thread post first cs,
      env.getPrCommentsResp = Except.ok threads →
      threads = pre ++ thread :: post →
      (∀ th ∈ pre, threadMatches topic (commentHeader topic)
        (commentBody sanitize topic content) th = false) →
      threadMatches topic (commentHeader topic)
        (commentBody sanitize topic content) thread = true →
      thread.comments = some (first :: cs) →
      first.content = some (commentBody sanitize topic content) →
      ensureComment sanitize cfg env number topic content =
        ⟨true, cfg, [RemoteCall.getPrComments cfg.repository number]⟩) ∧
    (∀ env env2 threads cid e es meta before after,
      env.getPrCommentsResp = Except.ok threads →
      (∀ th ∈ threads, threadMatches topic (commentHeader topic)
        (commentBody sanitize topic content) th = false) →
      env.getPrEventsResp = some (e :: es) →
      e.sourceReferenceUpdatedMetadata = some meta →
      meta.beforeCommitId = some before →
      meta.afterCommitId = some after →
      before ≠ "" → after ≠ "" →
      env2.getPrCommentsResp = Except.ok (threads ++
        [bodyThread cid (commentBody sanitize topic content)]) →
      (ensureComment sanitize cfg env number topic content =
        ⟨true, cfg, [RemoteCall.getPrComments cfg.repository number,
          RemoteCall.getPrEvents number,
          RemoteCall.createPrComment number cfg.repository
            (commentBody sanitize topic content) before after]⟩ ∧
       ensureComment sanitize cfg env2 number topic content =
        ⟨true, cfg, [RemoteCall.getPrComments cfg.repository number]⟩)) := by
  constructor
  · intro env threads pre thread post first cs hresp hsplit hpre hmatch
      hcomments hcontent
    subst hsplit
    simp only [ensureComment, hresp]
    rw [findCommentThread_first_equal topic (commentHeader topic)
      (commentBody sanitize topic content) pre post thread first cs hpre
      hmatch hcomments hcontent]
    simp
  · intro env env2 threads cid e es meta before after hresp hall hev hmeta
      hb ha hbne hane hresp2
    constructor
    · simp only [ensureComment, hresp]
      rw [findCommentThread_none_of_unmatched topic (commentHeader topic)
        (commentBody sanitize topic content) threads hall]
      simp only [ensureCommentCreate, hev, hmeta, hb, ha]
      simp [hbne, hane]
    · simp only [ensureComment, hresp2]
      rw [findCommentThread_unmatched_append topic (commentHeader topic)
        (commentBody sanitize topic content) threads _ hall]
      have hm := threadMatches_body_root sanitize topic content cid
      simp only [findCommentThread, bodyThread, hm, if_true]
      simp [bodyThread] at hm
      simp [hm]

/-- Sample commit anchors of the first pull-request event. -/
def sampleMeta : SourceReferenceUpdatedMetadata :=
  { beforeCommitId := some "b", afterCommitId := some "a" }

/-- Sample pull-request event carrying the commit anchors. -/
def sampleEvent : PrEvent := { sourceReferenceUpdatedMetadata := some sampleMeta }

/-- Environment with no comment threads and a usable creation anchor. -/
def envCreatePath : Env :=
  { baseEnv with
    getPrCommentsResp := Except.ok []
    getPrEventsResp := some [sampleEvent] }

/-- Environment after the remote appended a created thread with the given
body. -/
def envAfterCreate (body : String) : Env :=
  { baseEnv with
    getPrCommentsResp := Except.ok [bodyThread "n1" body] }

/-- Witness for the amended claim C5: creating once, then a second call
that finds the created thread and is a no-op. -/
theorem ensureComment_idempotent_amended_witness :
    (ensureComment (fun s => s) cfgRepo envCreatePath 1 (some "t") "hello" =
      ⟨true, cfgRepo, [RemoteCall.getPrComments (some "someRepo") 1,
        RemoteCall.getPrEvents 1,
        RemoteCall.createPrComment 1 (some "someRepo")
          (commentBody (fun s => s) (some "t") "hello") "b" "a"]⟩ ∧
     ensureComment (fun s => s) cfgRepo
        (envAfterCreate (commentBody (fun s => s) (some "t") "hello")) 1
        (some "t") "hello" =
      ⟨true, cfgRepo, [RemoteCall.getPrComments (some "someRepo") 1]⟩) :=
  (ensureComment_idempotent_amended (fun s => s) cfgRepo 1 (some "t") "hello").2
    envCreatePath (envAfterCreate (commentBody (fun s => s) (some "t") "hello"))
    [] "n1" sampleEvent [] sampleMeta "b" "a" rfl (by simp) rfl rfl rfl rfl
    (by decide) (by decide) rfl

/-- Claim C6 counterexample: a content of 10240 characters is passed to the
remote create call in full, so the composed body is not truncated to the
10239-byte budget. -/
theorem ensureComment_no_truncation_counterexample :
    (ensureComment (fun s => s) cfgEmpty envCreatePath 42 none
        (String.mk (List.replicate 10240 'a'))).calls =
      [RemoteCall.getPrComments none 42, RemoteCall.getPrEvents 42,
       RemoteCall.createPrComment 42 none
         (String.mk (List.replicate 10240 'a')) "b" "a"] ∧
    10239 < (String.mk (List.replicate 10240 'a')).length := by
  refine ⟨rfl, ?_⟩
  have h1 : (String.mk (List.replicate 10240 'a')).length =
      (List.replicate 10240 'a').length := rfl
  rw [h1, List.length_replicate]
  norm_num

/-- Claim C6 amended: ensureComment applies no truncation: the body passed
to the remote create call, and likewise to the remote update call, is the
topic header followed by the complete sanitized content (truncation to
the 10239-byte budget happens in createPr and updatePr, not here). -/
theorem ensureComment_body_untruncated (sanitize : String → String)
    (cfg : Config) (number : Nat) (topic : Option String) (content : String) :
    (∀ env threads e es meta before after,
      env.getPrCommentsResp = Except.ok threads →
      (∀ th ∈ threads, threadMatches topic (commentHeader topic)
        (commentBody sanitize topic content) th = false) →
      env.getPrEventsResp = some (e :: es) →
      e.sourceReferenceUpdatedMetadata = some meta →
      meta.beforeCommitId = some before →
      meta.afterCommitId = some after →
      before ≠ "" → after ≠ "" →
      (ensureComment sanitize cfg env number topic content).calls =
        [RemoteCall.getPrComments cfg.repository number,
         RemoteCall.getPrEvents number,
         RemoteCall.createPrComment number cfg.repository
           (commentBody sanitize topic content) before after]) ∧
    (∀ env threads cid,
      env.getPrCommentsResp = Except.ok threads →
      findCommentThread topic (commentHeader topic)
        (commentBody sanitize topic content) threads = some (cid, true) →
      (ensureComment sanitize cfg env number topic content).calls =
        [RemoteCall.getPrComments cfg.repository number,
         RemoteCall.updateComment cid (commentBody sanitize topic content)]) ∧
    commentBody sanitize topic content = commentHeader topic ++ sanitize content := by
  refine ⟨?_, ?_, rfl⟩
  · intro env threads e es meta before after hresp hall hev hmeta hb ha
      hbne hane
    simp only [ensureComment, hresp]
    rw [findCommentThread_none_of_unmatched topic (commentHeader topic)
      (commentBody sanitize topic content) threads hall]
    simp only [ensureCommentCreate, hev, hmeta, hb, ha]
    simp [hbne, hane]
  · intro env threads cid hresp hfind
    simp [ensureComment, hresp, hfind]

/-- Witness for the amended claim C6: a short comment created with the
composed body in full. -/
theorem ensureComment_body_untruncated_witness :
    (ensureComment (fun s => s) cfgEmpty envCreatePath 7 (some "t") "x").calls =
      [RemoteCall.getPrComments none 7, RemoteCall.getPrEvents 7,
       RemoteCall.createPrComment 7 none
         (commentBody (fun s => s) (some "t") "x") "b" "a"] :=
  (ensureComment_body_untruncated (fun s => s) cfgEmpty 7 (some "t") "x").1
    envCreatePath [] sampleEvent [] sampleMeta "b" "a" rfl (by simp)
    rfl rfl rfl rfl (by decide) (by decide)

/-- Removal key of `ensureCommentRemoval`: by topic or by exact content. -/
inductive RemovalKey where
  | byTopic (topic : String)
  | byContent (content : String)
deriving DecidableEq, Repr

/-- Matching rule of the removal loop (index.ts lines 699 to 704), applied
to every comment of a thread: a by-topic key matches content that starts
with the topic header, a by-content key matches content whose trimmed
form equals the key exactly; absent content never matches. -/
def removalMatches (key : RemovalKey) (comment : Comment) : Bool :=
  match key, comment.content with
  | RemovalKey.byTopic topic, some c =>
      strStartsWith c ("### " ++ topic ++ "\n\n")
  | RemovalKey.byContent content, some c => content == c.trim
  | _, none => false

/-- Scan of the removal loop (index.ts lines 691 to 714): the inner loop
takes the first matching comment of a thread, root or reply alike, and
the first thread that yields one stops the outer loop. -/
def ensureCommentRemovalScan (key : RemovalKey) :
    List CommentThread → Option String
  | [] => none
  | thread :: rest =>
    match thread.comments with
    | none => ensureCommentRemovalScan key rest
    | some cs =>
      match cs.find? (removalMatches key) with
      | some c => some c.commentId
      | none => ensureCommentRemovalScan key rest

/-- Shallow embedding of `ensureCommentRemoval` (index.ts lines 665 to
715): retrieve the threads (a rejection aborts silently), scan for the
first matching comment, and issue one delete call when a match exists. -/
def ensureCommentRemoval (cfg : Config) (env : Env) (prNo : Nat)
    (key : RemovalKey) : OpResult Unit :=
  let c0 := [RemoteCall.getPrComments cfg.repository prNo]
  match env.getPrCommentsResp with
  | Except.error _ => ⟨(), cfg, c0⟩
  | Except.ok threads =>
    match ensureCommentRemovalScan key threads with
    | some commentId => ⟨(), cfg, c0 ++ [RemoteCall.deleteComment commentId]⟩
    | none => ⟨(), cfg, c0⟩

/-- Root comment that does not match the sample topic. -/
def rootComment : Comment := { commentId := "c1", content := some "hello" }

/-- Reply comment below the root whose content starts with the sample
topic header. -/
def replyComment : Comment :=
  { commentId := "c2", content := some "### status\n\nbody" }

/-- One thread whose root does not match but whose reply does. -/
def threadsRootReply : List CommentThread :=
  [{ comments := some [rootComment, replyComment] }]

/-- Environment returning the root-plus-reply thread. -/
def envRootReply : Env :=
  { baseEnv with getPrCommentsResp := Except.ok threadsRootReply }

/-- Claim C8 counterexample: the root comment of the only thread does not
match the by-topic key, the reply below it does, and ensureCommentRemoval
deletes that reply, so matching is not restricted to root comments. -/
theorem ensureCommentRemoval_reply_counterexample :
    removalMatches (RemovalKey.byTopic "status") rootComment = false ∧
    removalMatches (RemovalKey.byTopic "status") replyComment = true ∧
    (ensureCommentRemoval cfgEmpty envRootReply 7
        (RemovalKey.byTopic "status")).calls =
      [RemoteCall.getPrComments none 7, RemoteCall.deleteComment "c2"] :=
  ⟨by decide, by decide, by decide⟩

/-- The removal scan selects exactly the first matching comment of the
concatenation of all threads, roots and replies alike. -/
theorem ensureCommentRemovalScan_eq_first_match (key : RemovalKey)
    (threads : List CommentThread) :
    ensureCommentRemovalScan key threads =
      ((threads.flatMap fun th => th.comments.getD []).find?
        (removalMatches key)).map Comment.commentId := by
  induction threads with
  | nil => rfl
  | cons thread rest ih =>
    simp only [ensureCommentRemovalScan, List.flatMap_cons, List.find?_append]
    cases hc : thread.comments with
    | none => simpa using ih
    | some cs =>
      simp only [Option.getD]
      cases hf : cs.find? (removalMatches key) with
      | none => simpa [hf, Option.or] using ih
      | some c => simp [hf, Option.or]

/-- Claim C8 amended: ensureCommentRemoval matches every comment of every
thread, replies included; it deletes exactly the first matching comment
in thread order (and position order within a thread), issuing a single
delete call, and issues no delete call when nothing matches. -/
theorem ensureCommentRemoval_first_match (cfg : Config) (env : Env)
    (prNo : Nat) (key : RemovalKey) (threads : List CommentThread)
    (hresp : env.getPrCommentsResp = Except.ok threads) :
    (ensureCommentRemoval cfg env prNo key).calls =
      [RemoteCall.getPrComments cfg.repository prNo] ++
        (match ((threads.flatMap fun th => th.comments.getD []).find?
            (removalMatches key)).map Comment.commentId with
         | some commentId => [RemoteCall.deleteComment commentId]
         | none => []) := by
  simp only [ensureCommentRemoval, hresp,
    ensureCommentRemovalScan_eq_first_match key threads]
  cases ((threads.flatMap fun th => th.comments.getD []).find?
      (removalMatches key)).map Comment.commentId with
  | none => rfl
  | some commentId => rfl

/-- Witness for the amended claim C8 on the root-plus-reply thread. -/
theorem ensureCommentRemoval_first_match_witness :
    (ensureCommentRemoval cfgEmpty envRootReply 7
        (RemovalKey.byTopic "status")).calls =
      [RemoteCall.getPrComments none 7] ++
        (match ((threadsRootReply.flatMap fun th => th.comments.getD []).find?
            (removalMatches (RemovalKey.byTopic "status"))).map
              Comment.commentId with
         | some commentId => [RemoteCall.deleteComment commentId]
         | none => []) :=
  ensureCommentRemoval_first_match cfgEmpty envRootReply 7
    (RemovalKey.byTopic "status") threadsRootReply rfl

/-- createPr never writes the config object. -/
theorem createPr_cfg (sanitize : String → String) (cfg : Config) (env : Env)
    (sb tb ti bo : String) : (createPr sanitize cfg env sb tb ti bo).cfg = cfg := by
  simp only [createPr]
  split
  · rfl
  · split
    · split <;> rfl
    · rfl

/-- The status step of updatePr never writes the config object. -/
theorem updatePrStatusStep_cfg (cfg : Config) (prNo : Nat)
    (state : Option PrState) (calls : List RemoteCall) :
    (updatePrStatusStep cfg prNo state calls).cfg = cfg := rfl

/-- The title step of updatePr never writes the config object. -/
theorem updatePrTitleStep_cfg (cfg : Config) (env : Env) (prNo : Nat)
    (title : Option String) (state : Option PrState)
    (calls : List RemoteCall) :
    (updatePrTitleStep cfg env prNo title state calls).cfg = cfg := by
  simp only [updatePrTitleStep]
  split
  · split
    · rfl
    · apply updatePrStatusStep_cfg
  · apply updatePrStatusStep_cfg

/-- updatePr never writes the config object. -/
theorem updatePr_cfg (sanitize : String → String) (cfg : Config) (env : Env)
    (prNo : Nat) (title body : Option String) (state : Option PrState) :
    (updatePr sanitize cfg env prNo title body state).cfg = cfg := by
  simp only [updatePr]
  split
  · split
    · rfl
    · apply updatePrTitleStep_cfg
  · apply updatePrTitleStep_cfg

/-- The close step of mergePr never writes the config object. -/
theorem mergePrClose_cfg (cfg : Config) (env : Env) (prNo : Nat)
    (calls : List RemoteCall) : (mergePrClose cfg env prNo calls).cfg = cfg := by
  simp only [mergePrClose]
  split <;> rfl

/-- mergePr never writes the config object. -/
theorem mergePr_cfg (cfg : Config) (env : Env) (prNo : Nat)
    (strategy : MergeStrategy) : (mergePr cfg env prNo strategy).cfg = cfg := by
  simp only [mergePr]
  split
  · rfl
  · split
    · rfl
    · split
      · rfl
      · split
        · rfl
        · split <;> (try split) <;> first | rfl | apply mergePrClose_cfg

/-- The creation path of ensureComment never writes the config object. -/
theorem ensureCommentCreate_cfg (cfg : Config) (env : Env) (number : Nat)
    (body : String) (calls : List RemoteCall) :
    (ensureCommentCreate cfg env number body calls).cfg = cfg := by
  simp only [ensureCommentCreate]
  split
  · rfl
  · rfl
  · split
    · rfl
    · split
      · split <;> rfl
      · rfl

/-- ensureComment never writes the config object. -/
theorem ensureComment_cfg (sanitize : String → String) (cfg : Config)
    (env : Env) (number : Nat) (topic : Option String) (content : String) :
    (ensureComment sanitize cfg env number topic content).cfg = cfg := by
  simp only [ensureComment]
  split
  · rfl
  · split
    · split <;> rfl
    · apply ensureCommentCreate_cfg

/-- ensureCommentRemoval never writes the config object. -/
theorem ensureCommentRemoval_cfg (cfg : Config) (env : Env) (prNo : Nat)
    (key : RemovalKey) : (ensureCommentRemoval cfg env prNo key).cfg = cfg := by
  simp only [ensureCommentRemoval]
  split
  · rfl
  · split <;> rfl

/-- Claim C4: once the PR-list cache slot is populated, getPrList returns
exactly the cached sequence with no remote call; createPr, updatePr,
mergePr, ensureComment and ensureCommentRemoval leave the config object,
and hence the cache slot, untouched; and after a first getPrList
populates the cache, a second getPrList returns the same sequence with no
remote call even against a different remote environment. -/
theorem prList_cache_stability (cfg : Config) (env env2 : Env)
    (prs : List Pr) (hcache : cfg.prList = some prs) :
    (getPrList cfg env = ⟨Except.ok prs, cfg, []⟩) ∧
    (∀ sanitize sb tb ti bo,
      (createPr sanitize cfg env sb tb ti bo).cfg = cfg) ∧
    (∀ sanitize prNo title body state,
      (updatePr sanitize cfg env prNo title body state).cfg = cfg) ∧
    (∀ prNo strategy, (mergePr cfg env prNo strategy).cfg = cfg) ∧
    (∀ sanitize number topic content,
      (ensureComment sanitize cfg env number topic content).cfg = cfg) ∧
    (∀ prNo key, (ensureCommentRemoval cfg env prNo key).cfg = cfg) ∧
    (∀ cfg0 prIds, cfg0.prList = none →
      env.listPullRequestsResp = Except.ok (some (some prIds)) →
      getPrList (getPrList cfg0 env).cfg env2 =
        ⟨(getPrList cfg0 env).res, (getPrList cfg0 env).cfg, []⟩) := by
  refine ⟨?_, ?_, ?_, ?_, ?_, ?_, ?_⟩
  · simp [getPrList, hcache]
  · intro sanitize sb tb ti bo; apply createPr_cfg
  · intro sanitize prNo title body state; apply updatePr_cfg
  · intro prNo strategy; apply mergePr_cfg
  · intro sanitize number topic content; apply ensureComment_cfg
  · intro prNo key; apply ensureCommentRemoval_cfg
  · intro cfg0 prIds h0 hlist
    simp [getPrList, h0, hlist]

/-- Witness for claim C4: the populated cache is returned verbatim with no
remote call. -/
theorem prList_cache_stability_witness :
    getPrList cfgClosedCached baseEnv =
      ⟨Except.ok [prClosedFeature], cfgClosedCached, []⟩ :=
  (prList_cache_stability cfgClosedCached baseEnv envMergedClosed
    [prClosedFeature] rfl).1

/-- Result of a successful platform initialization. -/
structure PlatformResult where
  endpoint : String
deriving DecidableEq, Repr

/-- Error message of a failed platform initialization (index.ts lines 77
to 81). -/
def initError : String :=
  "Init: You must configure a AWS user(accessKeyId), password(secretAccessKey) and endpoint/AWS_REGION"

/-- Shallow embedding of `initPlatform` (index.ts lines 51 to 100): resolve
credentials from the parameters with environment fallback; when an
endpoint is given, the region comes only from parsing the endpoint (a
failed parse merely logs a warning), and the environment region is
consulted only when no endpoint is given; any missing credential or
region raises the configuration error.  The region parser is the external
regex util, passed as a parameter; the IAM and client initialization
calls after the check do not affect the returned value and are omitted. -/
def initPlatform (parseEndpointRegion : String → Option String)
    (endpoint username password envAccessKeyId envSecretAccessKey
      envRegion : Option String) : Except String PlatformResult :=
  let accessKeyId := if jsTruthy username then username else envAccessKeyId
  let secretAccessKey :=
    if jsTruthy password then password else envSecretAccessKey
  let region :=
    if jsTruthy endpoint then parseEndpointRegion (endpoint.getD "")
    else envRegion
  if !(jsTruthy accessKeyId) || !(jsTruthy secretAccessKey) ||
      !(jsTruthy region) then
    Except.error initError
  else
    Except.ok { endpoint :=
      match endpoint with
      | some e => e
      | none =>
        "https://git-codecommit." ++ region.getD "" ++ ".amazonaws.com/" }

/-- Claim C9: with a non-empty endpoint from which no region can be parsed,
initPlatform raises the missing-configuration error even when the
environment region is set and the credentials resolve; the environment
region is used only when no endpoint argument is given, in which case a
resolvable configuration succeeds with the default endpoint built from
that region. -/
theorem initPlatform_region_from_endpoint_only
    (parse : String → Option String) (ep : String)
    (username password envAccessKeyId envSecretAccessKey : Option String)
    (r : String) (hep : ep ≠ "") (hparse : parse ep = none) :
    (initPlatform parse (some ep) username password envAccessKeyId
        envSecretAccessKey (some r) = Except.error initError) ∧
    (∀ u p, u ≠ "" → p ≠ "" → r ≠ "" →
      initPlatform parse none (some u) (some p) envAccessKeyId
          envSecretAccessKey (some r) =
        Except.ok { endpoint :=
          "https://git-codecommit." ++ r ++ ".amazonaws.com/" }) := by
  constructor
  · simp [initPlatform, jsTruthy, hep, hparse]
  · intro u p hu hp hr
    simp [initPlatform, jsTruthy, hu, hp, hr]

/-- Witness for claim C9: an endpoint the parser rejects with the
environment region set still raises the configuration error, and the
endpoint-free call uses the environment region. -/
theorem initPlatform_region_from_endpoint_only_witness :
    initPlatform (fun _ => none) (some "https://example.com") (some "user")
        (some "pass") none none (some "eu-west-1") = Except.error initError ∧
    initPlatform (fun _ => none) none (some "user") (some "pass") none none
        (some "eu-west-1") =
      Except.ok { endpoint :=
        "https://git-codecommit." ++ "eu-west-1" ++ ".amazonaws.com/" } :=
  ⟨(initPlatform_region_from_endpoint_only (fun _ => none)
      "https://example.com" (some "user") (some "pass") none none
      "eu-west-1" (by decide) rfl).1,
   (initPlatform_region_from_endpoint_only (fun _ => none)
      "https://example.com" (some "user") (some "pass") none none
      "eu-west-1" (by decide) rfl).2 "user" "pass" (by decide) (by decide)
      (by decide)⟩

end CodeCommit
